import Mathlib

/-!
# ProxyUser model (index.js): credential hashing, the pre-save hook and authentication

A shallow embedding of the methods, validators and the save hook that
`ProxyModel()` attaches to `ProxyUserSchema`, followed by the properties
proved about them.

Conventions of the embedding

* A JavaScript string is a Lean `String`; `s.length` is `jsLength s`, the number
  of UTF-16 code units (a character above U+FFFF counts twice).  Strings holding
  a lone surrogate have no counterpart here.
* A `Buffer` is the list of its bytes (`List Nat`, every entry below 256).
* `hashPassword`, `authenticate` and the save hook return in `Except`: a
  returned `v` is `Except.ok v`, a thrown error would be `Except.error`.
* `crypto.pbkdf2Sync` is a parameter of the development (a total function of
  password, salt, iteration count and key length, with the digest left to its
  default as in the call of the source); `crypto.randomBytes` reads the byte
  stream carried by `Runtime`.
* The conversion a path of schema type `String` applies to a `Buffer` assigned
  to it (`buf.toString()`) is a parameter of the development as well: the save
  hook is modelled for every such conversion, and a property that needs a fact
  about it says which.
* The framework keeps the list of modified paths; the hook reads it through
  `isModified`. The list is an input of the hook and is not part of the
  document it returns.
-/

namespace ProxyModel

/-! ## JavaScript values used by the model -/

/-- Number of UTF-16 code units of one character. -/
def utf16Units (c : Char) : Nat :=
  if c.toNat < 0x10000 then 1 else 2

/-- The `length` property of a JavaScript string. -/
def jsLength (s : String) : Nat :=
  (s.toList.map utf16Units).sum

/-- Truthiness of a string: every string but the empty one. -/
def truthy (s : String) : Bool :=
  s != ""

/-- Truthiness of a field that may be `undefined`. -/
def truthyField : Option String → Bool
  | none => false
  | some s => truthy s

/-- The values a validator expression can evaluate to. -/
inductive Value where
  | str (s : String)
  | bool (b : Bool)
  deriving DecidableEq, Repr

/-- Truthiness of a validator result. -/
def Value.truthy : Value → Bool
  | .str s => ProxyModel.truthy s
  | .bool b => b

/-- An error object, by constructor name and message. -/
structure JsError where
  name : String
  message : String
  deriving DecidableEq, Repr

/-! ## Buffers and base64 -/

/-- The base64 alphabet. -/
def base64Alphabet : List Char :=
  "ABCDEFGHIJKLMNOPQRSTUVWXYZabcdefghijklmnopqrstuvwxyz0123456789+/".toList

/-- Character of a 6-bit value. -/
def base64Char (n : Nat) : Char :=
  base64Alphabet.getD n 'A'

/-- Characters of `buf.toString('base64')`: three bytes give four characters,
a last group of one or two bytes is padded with `=`. -/
def toBase64Chars : List Nat → List Char
  | [] => []
  | [a] => [base64Char (a / 4), base64Char (a % 4 * 16), '=', '=']
  | [a, b] => [base64Char (a / 4), base64Char (a % 4 * 16 + b / 16), base64Char (b % 16 * 4), '=']
  | a :: b :: c :: rest =>
      base64Char (a / 4) :: base64Char (a % 4 * 16 + b / 16) ::
        base64Char (b % 16 * 4 + c / 64) :: base64Char (c % 64) :: toBase64Chars rest

/-- Text of `buf.toString('base64')`. -/
def toBase64 (bytes : List Nat) : String :=
  String.mk (toBase64Chars bytes)

/-- Six-bit value of a base64 character (both the standard and the URL-safe
alphabet are read); `none` for any other character. -/
def base64Value (c : Char) : Option Nat :=
  if 65 ≤ c.toNat ∧ c.toNat ≤ 90 then some (c.toNat - 65)
  else if 97 ≤ c.toNat ∧ c.toNat ≤ 122 then some (c.toNat - 97 + 26)
  else if 48 ≤ c.toNat ∧ c.toNat ≤ 57 then some (c.toNat - 48 + 52)
  else if c = '+' ∨ c = '-' then some 62
  else if c = '/' ∨ c = '_' then some 63
  else none

/-- Bytes of a run of 6-bit values: four values give three bytes, a last group
of three gives two bytes and a last group of two gives one. -/
def fromSextets : List Nat → List Nat
  | a :: b :: c :: d :: rest =>
      (a * 4 + b / 16) :: (b % 16 * 16 + c / 4) :: (c % 4 * 64 + d) :: fromSextets rest
  | [a, b, c] => [a * 4 + b / 16, b % 16 * 16 + c / 4]
  | [a, b] => [a * 4 + b / 16]
  | _ => []

/-- The 6-bit values read from base64 characters: a character outside the
alphabet, the padding `=` among them, is skipped. -/
def readSextets (cs : List Char) : List Nat :=
  cs.filterMap base64Value

/-- Bytes of `new Buffer(text, 'base64')`. The save hook hands it only texts
made by `toString('base64')`. -/
def fromBase64 (text : String) : List Nat :=
  fromSextets (readSextets text.toList)

/-- The type of the conversion `buf.toString()` of a buffer to a string, which
a path of schema type `String` applies to a `Buffer` assigned to it. -/
abbrev BufferToString := List Nat → String

/-! ## The schema -/

/-- A document of `ProxyUserSchema`: one field for each path of the schema.
`salt` has no default and is `none` until it is assigned; `created` is the
creation time in milliseconds. -/
structure ProxyUser where
  username : String
  password : String
  salt : Option String
  email : String
  roles : List String
  vm_id : String
  vm_ip : String
  vm_ip_id : String
  volume_id : String
  device_type : String
  approved : Bool
  created : Nat
  deriving DecidableEq, Repr

/-- The object handed to `new ProxyUser(obj)`: any path may be left out. -/
structure ProxyUserInit where
  username : String
  password : Option String := none
  salt : Option String := none
  email : Option String := none
  roles : Option (List String) := none
  vm_id : Option String := none
  vm_ip : Option String := none
  vm_ip_id : Option String := none
  volume_id : Option String := none
  device_type : Option String := none
  approved : Option Bool := none
  created : Option Nat := none
  deriving DecidableEq, Repr

/-- Document built by `new ProxyUser(obj)`: a path left out takes the default
the schema declares for it (`now` is what `Date.now` returns). The `trim`
setter of `email` is left out: nothing below reads `email`. -/
def newProxyUser (now : Nat) (obj : ProxyUserInit) : ProxyUser where
  username := obj.username
  password := obj.password.getD ""
  salt := obj.salt
  email := obj.email.getD ""
  roles := obj.roles.getD ["user"]
  vm_id := obj.vm_id.getD ""
  vm_ip := obj.vm_ip.getD ""
  vm_ip_id := obj.vm_ip_id.getD ""
  volume_id := obj.volume_id.getD ""
  device_type := obj.device_type.getD ""
  approved := obj.approved.getD false
  created := obj.created.getD now

/-- Answer of `that.isModified(path)`, from the paths the framework has
recorded as modified since the document was last saved. -/
def isModified (modifiedPaths : List String) (path : String) : Bool :=
  modifiedPaths.contains path

/-! ## Validation helpers -/

/-- Validator `validateNotEmpty`: `property && property.length > 0`. -/
def validateNotEmpty (property : String) : Value :=
  if truthy property then .bool (decide (jsLength property > 0)) else .str property

/-- Validator `validatePassword`: `pwd && pwd.length > 8`. -/
def validatePassword (pwd : String) : Value :=
  if truthy pwd then .bool (decide (jsLength pwd > 8)) else .str pwd

/-- Message of the password validator. -/
def passwordMessage : String := "Password should be at least 8 characters"

/-- Outcome of the password validator on a document path: the value passes when
the validator returns a truthy value, otherwise the path is rejected with the
validator message. -/
def checkPassword (pwd : String) : Except String Unit :=
  if (validatePassword pwd).truthy then .ok () else .error passwordMessage

/-! ## Randomness source and call log -/

/-- The calls the save hook can make. -/
inductive Call where
  | randomBytes (size : Nat)
  | hashPassword (password : String)
  deriving DecidableEq, Repr

/-- State outside the document: the byte stream of the randomness source, how
many of its bytes have been handed out, and the calls made so far. -/
structure Runtime where
  entropy : Nat → Nat
  drawn : Nat
  calls : List Call

/-- Model of `crypto.randomBytes(size)`: the next `size` bytes of the stream. -/
def randomBytes (size : Nat) (rt : Runtime) : List Nat × Runtime :=
  ((List.range size).map (fun i => rt.entropy (rt.drawn + i) % 256),
   { rt with drawn := rt.drawn + size, calls := rt.calls ++ [Call.randomBytes size] })

/-! ## Methods and the save hook -/

/-- The type of `crypto.pbkdf2Sync(password, salt, iterations, keylen)`. -/
abbrev Pbkdf2 := String → String → Nat → Nat → List Nat

/-- Method `hashPassword`: with a truthy salt and a truthy password the base64
text of the derived key, otherwise the password as given. -/
def hashPassword (pbkdf2Sync : Pbkdf2) (that : ProxyUser) (password : String) :
    Except JsError String :=
  if truthyField that.salt && truthy password then
    .ok (toBase64 (pbkdf2Sync password (that.salt.getD "") 10000 64))
  else
    .ok password

/-- The save hook registered with `ProxyUserSchema.pre`. It returns the document
as `next()` finds it, with the runtime state. The salt is assigned to a path of
type `String`, so the buffer is stored as its string conversion. -/
def preSave (pbkdf2Sync : Pbkdf2) (bufferToString : BufferToString)
    (modifiedPaths : List String) (that : ProxyUser) (rt : Runtime) :
    Except JsError (ProxyUser × Runtime) :=
  if !isModified modifiedPaths "password" then
    .ok (that, rt)
  else if truthy that.password && decide (jsLength that.password > 6) then
    let (bytes, rt1) := randomBytes 16 rt
    let that1 := { that with salt := some (bufferToString (fromBase64 (toBase64 bytes))) }
    let rt2 := { rt1 with calls := rt1.calls ++ [Call.hashPassword that1.password] }
    match hashPassword pbkdf2Sync that1 that1.password with
    | .ok hash => .ok ({ that1 with password := hash }, rt2)
    | .error e => .error e
  else
    .ok (that, rt)

/-- Method `getRole`: `this.roles[0]`, `none` standing for `undefined`. -/
def getRole (that : ProxyUser) : Option String :=
  that.roles[0]?

/-- Method `isAdmin`: whether `this.roles[0]` is the string admin. -/
def isAdmin (that : ProxyUser) : Bool :=
  that.roles[0]? == some "admin"

/-- Method `authenticate`: strict equality of the stored password with
`hashPassword` of the candidate. -/
def authenticate (pbkdf2Sync : Pbkdf2) (that : ProxyUser) (password : String) :
    Except JsError Bool :=
  match hashPassword pbkdf2Sync that password with
  | .ok hash => .ok (decide (that.password = hash))
  | .error e => .error e

/-- The field assignment `user.password = value` made by a caller before a save. -/
def assignPassword (user : ProxyUser) (value : String) : ProxyUser :=
  { user with password := value }

/-- The field assignment `user.device_type = value` made by a caller before a save. -/
def assignDeviceType (user : ProxyUser) (value : String) : ProxyUser :=
  { user with device_type := value }

/-! ## Sample inputs -/

/-- A stand-in for `crypto.pbkdf2Sync`, used only to instantiate statements at a
concrete input: `keylen` bytes computed from the lengths of its arguments. -/
def samplePbkdf2 : Pbkdf2 :=
  fun password salt iterations keylen =>
    (List.range keylen).map (fun i => (password.length + salt.length + iterations + i) % 256)

/-- A key derivation that returns `keylen` zero bytes whatever it is given. -/
def zeroPbkdf2 : Pbkdf2 :=
  fun _ _ _ keylen => List.replicate keylen 0

/-- A stand-in for `buf.toString()`, used only to instantiate statements at a
concrete input: a byte below 128 gives its ASCII character, any other byte
gives U+FFFD. -/
def sampleToString : BufferToString :=
  fun bytes => String.mk (bytes.map fun b => if b < 128 then Char.ofNat b else Char.ofNat 0xFFFD)

/-- A randomness source whose every byte is 65, with nothing drawn so far. -/
def sampleRuntime : Runtime :=
  { entropy := fun _ => 65, drawn := 0, calls := [] }

/-- The document the tests build for bob, as `new ProxyUser` leaves it. -/
def bob : ProxyUser :=
  newProxyUser 0
    { username := "bob", password := some "bobbobbob", email := some "bob@here.com",
      approved := some true }

/-- The document the tests build for carl, as `new ProxyUser` leaves it. -/
def carl : ProxyUser :=
  newProxyUser 0
    { username := "carl", password := some "carlcarlcarl", email := some "carl@here.com",
      roles := some ["admin"] }

/-- A saved document: a stored hash text and a stored salt. -/
def storedUser : ProxyUser :=
  { bob with password := "c3RvcmVkIGhhc2g=", salt := some "c2FsdA==" }

/-- A document whose new password is the base64 text of 64 zero bytes. -/
def base64ZeroUser : ProxyUser :=
  { bob with
    password :=
      "AAAAAAAAAAAAAAAAAAAAAAAAAAAAAAAAAAAAAAAAAAAAAAAAAAAAAAAAAAAAAAAAAAAAAAAAAAAAAAAAAAAAAA==" }

/-- A document built with a six-character password and never given a salt. -/
def saltlessUser : ProxyUser :=
  newProxyUser 0 { username := "eve", password := some "secret", email := some "eve@here.com" }

/-! # Properties -/

/-! ## Base64 -/

theorem base64Value_base64Char : ∀ n, n < 64 → base64Value (base64Char n) = some n := by
  decide

theorem readSextets_char (n : Nat) (h : n < 64) (cs : List Char) :
    readSextets (base64Char n :: cs) = n :: readSextets cs := by
  simp [readSextets, List.filterMap_cons, base64Value_base64Char n h]

theorem base64Value_pad : base64Value '=' = none := by
  decide

theorem readSextets_pad (cs : List Char) : readSextets ('=' :: cs) = readSextets cs := by
  simp [readSextets, List.filterMap_cons, base64Value_pad]

theorem readSextets_nil : readSextets [] = [] := rfl

theorem fromSextets_toBase64Chars (bytes : List Nat) (h : ∀ b ∈ bytes, b < 256) :
    fromSextets (readSextets (toBase64Chars bytes)) = bytes := by
  induction bytes using toBase64Chars.induct with
  | case1 => simp [toBase64Chars, readSextets, fromSextets]
  | case2 a =>
      have ha : a < 256 := h a (by simp)
      rw [toBase64Chars, readSextets_char _ (by omega), readSextets_char _ (by omega),
        readSextets_pad, readSextets_pad, readSextets_nil]
      simp only [fromSextets]
      congr 1
      omega
  | case3 a b =>
      have ha : a < 256 := h a (by simp)
      have hb : b < 256 := h b (by simp)
      rw [toBase64Chars, readSextets_char _ (by omega), readSextets_char _ (by omega),
        readSextets_char _ (by omega), readSextets_pad, readSextets_nil]
      simp only [fromSextets]
      congr 1
      · omega
      · congr 1
        omega
  | case4 a b c rest ih =>
      have ha : a < 256 := h a (by simp)
      have hb : b < 256 := h b (by simp)
      have hc : c < 256 := h c (by simp)
      have hrest : ∀ x ∈ rest, x < 256 := fun x hx => h x (by simp [hx])
      rw [toBase64Chars, readSextets_char _ (by omega), readSextets_char _ (by omega),
        readSextets_char _ (by omega), readSextets_char _ (by omega)]
      simp only [fromSextets]
      rw [ih hrest]
      congr 1
      · omega
      · congr 1
        · omega
        · congr 1
          omega

theorem fromBase64_toBase64 (bytes : List Nat) (h : ∀ b ∈ bytes, b < 256) :
    fromBase64 (toBase64 bytes) = bytes := by
  simpa [fromBase64, toBase64, readSextets] using fromSextets_toBase64Chars bytes h

/-! ## Strings -/

theorem jsLength_empty : jsLength "" = 0 := by decide

theorem truthy_eq_true_iff (s : String) : truthy s = true ↔ s ≠ "" := by
  simp [truthy]

theorem truthy_of_jsLength_pos (s : String) (h : 0 < jsLength s) : truthy s = true := by
  rw [truthy_eq_true_iff]
  intro hs
  rw [hs, jsLength_empty] at h
  exact absurd h (by decide)

theorem utf16Units_base64Char (n : Nat) : utf16Units (base64Char n) = 1 := by
  by_cases h : n < 64
  · revert n
    decide
  · have : base64Alphabet.length ≤ n := by
      have : base64Alphabet.length = 64 := by decide
      omega
    simp [base64Char, List.getD, List.getElem?_eq_none this, utf16Units]

theorem utf16Units_pad : utf16Units '=' = 1 := by decide

theorem length_toBase64Chars (bytes : List Nat) :
    (toBase64Chars bytes).length = 4 * ((bytes.length + 2) / 3) := by
  induction bytes using toBase64Chars.induct with
  | case1 => simp [toBase64Chars]
  | case2 a => simp [toBase64Chars]
  | case3 a b => simp [toBase64Chars]
  | case4 a b c rest ih =>
      simp only [toBase64Chars, List.length_cons, ih]
      omega

theorem units_toBase64Chars (bytes : List Nat) :
    ((toBase64Chars bytes).map utf16Units).sum = (toBase64Chars bytes).length := by
  induction bytes using toBase64Chars.induct with
  | case1 => simp [toBase64Chars]
  | case2 a => simp [toBase64Chars, utf16Units_base64Char, utf16Units_pad]
  | case3 a b => simp [toBase64Chars, utf16Units_base64Char, utf16Units_pad]
  | case4 a b c rest ih =>
      simp only [toBase64Chars, List.map_cons, List.sum_cons, List.length_cons, ih,
        utf16Units_base64Char]
      omega

theorem jsLength_toBase64 (bytes : List Nat) :
    jsLength (toBase64 bytes) = 4 * ((bytes.length + 2) / 3) := by
  simp [jsLength, toBase64, units_toBase64Chars, length_toBase64Chars]

/-! ## Randomness -/

theorem length_randomBytes (size : Nat) (rt : Runtime) :
    (randomBytes size rt).1.length = size := by
  simp [randomBytes]

theorem randomBytes_lt (size : Nat) (rt : Runtime) :
    ∀ b ∈ (randomBytes size rt).1, b < 256 := by
  intro b hb
  simp only [randomBytes, List.mem_map, List.mem_range] at hb
  obtain ⟨i, _, rfl⟩ := hb
  exact Nat.mod_lt _ (by decide)

theorem randomBytes_ne_nil (rt : Runtime) : (randomBytes 16 rt).1 ≠ [] := by
  intro h
  have := length_randomBytes 16 rt
  rw [h] at this
  simp at this


/-! ## The save hook, branch by branch -/

theorem preSave_unmodified (kdf : Pbkdf2) (cast : BufferToString) (mp : List String)
    (that : ProxyUser) (rt : Runtime) (hmod : isModified mp "password" = false) :
    preSave kdf cast mp that rt = .ok (that, rt) := by
  simp [preSave, hmod]

theorem preSave_short (kdf : Pbkdf2) (cast : BufferToString) (mp : List String)
    (that : ProxyUser) (rt : Runtime)
    (hmod : isModified mp "password" = true) (hlen : jsLength that.password ≤ 6) :
    preSave kdf cast mp that rt = .ok (that, rt) := by
  have h : ¬ jsLength that.password > 6 := by omega
  simp [preSave, hmod, h]

theorem hashPassword_salted (kdf : Pbkdf2) (that : ProxyUser) (password salt : String)
    (hsalt : that.salt = some salt) (hs : salt ≠ "") (hp : password ≠ "") :
    hashPassword kdf that password = .ok (toBase64 (kdf password salt 10000 64)) := by
  simp [hashPassword, hsalt, truthyField, truthy, hs, hp]

theorem hashPassword_unsalted (kdf : Pbkdf2) (that : ProxyUser) (password : String)
    (h : that.salt = none ∨ that.salt = some "" ∨ password = "") :
    hashPassword kdf that password = .ok password := by
  rcases h with h | h | h <;> simp [hashPassword, h, truthyField, truthy]

theorem hashPassword_returns (kdf : Pbkdf2) (that : ProxyUser) (password : String) :
    ∃ hash, hashPassword kdf that password = .ok hash := by
  unfold hashPassword
  split <;> exact ⟨_, rfl⟩

theorem hashPassword_of_salt (kdf : Pbkdf2) (a b : ProxyUser) (password : String)
    (h : a.salt = b.salt) : hashPassword kdf a password = hashPassword kdf b password := by
  simp [hashPassword, h]

theorem preSave_rehash (kdf : Pbkdf2) (cast : BufferToString) (mp : List String)
    (that : ProxyUser) (rt : Runtime) (hash : String)
    (hmod : isModified mp "password" = true) (hlen : jsLength that.password > 6)
    (hh : hashPassword kdf { that with salt := some (cast (randomBytes 16 rt).1) }
      that.password = .ok hash) :
    preSave kdf cast mp that rt = .ok
      ({ that with salt := some (cast (randomBytes 16 rt).1), password := hash },
       { rt with
          drawn := rt.drawn + 16,
          calls := rt.calls ++ [Call.randomBytes 16, Call.hashPassword that.password] }) := by
  have htruthy : truthy that.password = true := truthy_of_jsLength_pos _ (by omega)
  have hround := fromBase64_toBase64 (randomBytes 16 rt).1 (randomBytes_lt 16 rt)
  simp only [preSave, hmod, htruthy, hlen, hround]
  simp only [hh]
  simp [randomBytes]

theorem authenticate_eq (kdf : Pbkdf2) (that : ProxyUser) (password hash : String)
    (h : hashPassword kdf that password = .ok hash) :
    authenticate kdf that password = .ok (decide (that.password = hash)) := by
  simp [authenticate, h]

theorem validatePassword_truthy_iff (pwd : String) :
    (validatePassword pwd).truthy = true ↔ 9 ≤ jsLength pwd := by
  by_cases h : pwd = ""
  · subst h
    decide
  · have ht : truthy pwd = true := (truthy_eq_true_iff pwd).mpr h
    simp only [validatePassword, ht, if_true, Value.truthy, decide_eq_true_eq]
    omega

/-! ## The claims -/

/-- C1. Authentication round trip: when the save hook runs on a document whose
password path is marked modified and holds a plaintext of more than six UTF-16
units, it returns a document on which `authenticate` of that plaintext returns
true, whatever bytes the randomness source hands out. -/
theorem authenticate_after_save (kdf : Pbkdf2) (cast : BufferToString) (mp : List String)
    (that : ProxyUser) (rt : Runtime) (p : String)
    (hmod : isModified mp "password" = true) (hlen : jsLength p > 6) :
    ∃ saved rt', preSave kdf cast mp (assignPassword that p) rt = .ok (saved, rt') ∧
      authenticate kdf saved p = .ok true := by
  obtain ⟨hash, hh⟩ := hashPassword_returns kdf
    { assignPassword that p with salt := some (cast (randomBytes 16 rt).1) } p
  refine ⟨_, _, preSave_rehash kdf cast mp (assignPassword that p) rt hash hmod hlen hh, ?_⟩
  have hsame := hashPassword_of_salt kdf
    { assignPassword that p with salt := some (cast (randomBytes 16 rt).1), password := hash }
    { assignPassword that p with salt := some (cast (randomBytes 16 rt).1) } p rfl
  rw [authenticate_eq kdf _ p hash (hsame.trans hh)]
  simp

/-- Witness for C1: bob saved with the password bobbobbob. -/
theorem authenticate_after_save_witness :
    ∃ saved rt', preSave samplePbkdf2 sampleToString ["password"]
        (assignPassword bob "bobbobbob") sampleRuntime = .ok (saved, rt') ∧
      authenticate samplePbkdf2 saved "bobbobbob" = .ok true :=
  authenticate_after_save samplePbkdf2 sampleToString ["password"] bob sampleRuntime
    "bobbobbob" (by decide) (by decide)

/-- C2. When the password path is not marked modified the save hook returns the
document and the runtime as they were: salt and password are untouched, no
random byte is drawn and no call is logged. Two saves in a row that each change
only `device_type` therefore both keep the original salt and password. -/
theorem preSave_password_unmodified (kdf : Pbkdf2) (cast : BufferToString)
    (mp : List String) (that : ProxyUser) (rt : Runtime)
    (hmod : isModified mp "password" = false) :
    preSave kdf cast mp that rt = .ok (that, rt) ∧
      ∀ d1 d2 : String,
        preSave kdf cast mp (assignDeviceType that d1) rt =
          .ok (assignDeviceType that d1, rt) ∧
        preSave kdf cast mp (assignDeviceType (assignDeviceType that d1) d2) rt =
          .ok (assignDeviceType (assignDeviceType that d1) d2, rt) ∧
        (assignDeviceType that d1).salt = that.salt ∧
        (assignDeviceType that d1).password = that.password ∧
        (assignDeviceType (assignDeviceType that d1) d2).salt = that.salt ∧
        (assignDeviceType (assignDeviceType that d1) d2).password = that.password := by
  refine ⟨preSave_unmodified kdf cast mp that rt hmod, fun d1 d2 => ?_⟩
  exact ⟨preSave_unmodified kdf cast mp _ rt hmod, preSave_unmodified kdf cast mp _ rt hmod,
    rfl, rfl, rfl, rfl⟩

/-- Witness for C2: a stored document saved with only `device_type` modified. -/
theorem preSave_password_unmodified_witness :
    preSave samplePbkdf2 sampleToString ["device_type"] storedUser sampleRuntime =
        .ok (storedUser, sampleRuntime) ∧
      ∀ d1 d2 : String,
        preSave samplePbkdf2 sampleToString ["device_type"] (assignDeviceType storedUser d1)
            sampleRuntime =
          .ok (assignDeviceType storedUser d1, sampleRuntime) ∧
        preSave samplePbkdf2 sampleToString ["device_type"]
            (assignDeviceType (assignDeviceType storedUser d1) d2) sampleRuntime =
          .ok (assignDeviceType (assignDeviceType storedUser d1) d2, sampleRuntime) ∧
        (assignDeviceType storedUser d1).salt = storedUser.salt ∧
        (assignDeviceType storedUser d1).password = storedUser.password ∧
        (assignDeviceType (assignDeviceType storedUser d1) d2).salt = storedUser.salt ∧
        (assignDeviceType (assignDeviceType storedUser d1) d2).password = storedUser.password :=
  preSave_password_unmodified samplePbkdf2 sampleToString ["device_type"] storedUser
    sampleRuntime (by decide)

theorem toBase64_zero : toBase64 (List.replicate 64 0) = base64ZeroUser.password := by
  decide

/-- C3, refuted as stated. The hook stores the hash text whatever it is, so the
plaintext stays in the password field when it equals its own hash text: with a
key derivation that returns 64 zero bytes, a document whose new password is the
88-character base64 text of 64 zero bytes leaves the hook with that same text
in the password field, for every string conversion and randomness source. -/
theorem preSave_keeps_fixed_point :
    (∀ (cast : BufferToString) (rt : Runtime), ∃ saved rt',
        preSave zeroPbkdf2 cast ["password"] base64ZeroUser rt = .ok (saved, rt') ∧
        saved.password = base64ZeroUser.password) ∧
      jsLength base64ZeroUser.password = 88 ∧
      (∀ password salt iterations keylen,
        (zeroPbkdf2 password salt iterations keylen).length = keylen) := by
  refine ⟨fun cast rt => ?_, by decide, fun _ _ _ _ => by simp [zeroPbkdf2]⟩
  have hh : hashPassword zeroPbkdf2
      { base64ZeroUser with salt := some (cast (randomBytes 16 rt).1) }
      base64ZeroUser.password = .ok base64ZeroUser.password := by
    by_cases hs : cast (randomBytes 16 rt).1 = ""
    · exact hashPassword_unsalted _ _ _ (Or.inr (Or.inl (congrArg some hs)))
    · rw [hashPassword_salted zeroPbkdf2 _ _ _ rfl hs (by decide)]
      exact congrArg Except.ok toBase64_zero
  exact ⟨_, _, preSave_rehash zeroPbkdf2 cast ["password"] base64ZeroUser rt _
    (by decide) (by decide) hh, rfl⟩

/-- C3, amended. When the password path is marked modified and holds a
plaintext of more than six UTF-16 units, the save hook draws 16 bytes from the
randomness source, stores the salt made from them, and stores as password the
base64 text of `pbkdf2Sync(plaintext, newSalt, 10000, 64)`, which is
`hashPassword` of the plaintext under the new salt. That text has 88 characters,
so the plaintext is still in the field only if it is itself that text, and never
when its length is not 88. Assumed of the library: the derived key has `keylen`
bytes and the string made of a non-empty buffer is not empty. -/
theorem preSave_rehashes (kdf : Pbkdf2) (cast : BufferToString) (mp : List String)
    (that : ProxyUser) (rt : Runtime)
    (hmod : isModified mp "password" = true) (hlen : jsLength that.password > 6)
    (hkdf : ∀ password salt iterations keylen,
      (kdf password salt iterations keylen).length = keylen)
    (hcast : ∀ bytes, bytes ≠ [] → cast bytes ≠ "") :
    ∃ saved rt', preSave kdf cast mp that rt = .ok (saved, rt') ∧
      (randomBytes 16 rt).1.length = 16 ∧
      rt'.drawn = rt.drawn + 16 ∧
      saved.salt = some (cast (randomBytes 16 rt).1) ∧
      truthyField saved.salt = true ∧
      saved.password = toBase64 (kdf that.password (cast (randomBytes 16 rt).1) 10000 64) ∧
      hashPassword kdf saved that.password = .ok saved.password ∧
      jsLength saved.password = 88 ∧
      (saved.password = that.password ↔
        that.password = toBase64 (kdf that.password (cast (randomBytes 16 rt).1) 10000 64)) ∧
      (jsLength that.password ≠ 88 → saved.password ≠ that.password) := by
  have hpos : that.password ≠ "" :=
    (truthy_eq_true_iff _).mp (truthy_of_jsLength_pos _ (by omega))
  have hsalt : cast (randomBytes 16 rt).1 ≠ "" := hcast _ (randomBytes_ne_nil rt)
  have h88 : jsLength
      (toBase64 (kdf that.password (cast (randomBytes 16 rt).1) 10000 64)) = 88 := by
    rw [jsLength_toBase64, hkdf]
  have hh := hashPassword_salted kdf
    { that with salt := some (cast (randomBytes 16 rt).1) } that.password _ rfl hsalt hpos
  refine ⟨_, _, preSave_rehash kdf cast mp that rt _ hmod hlen hh, length_randomBytes 16 rt,
    rfl, rfl, (truthy_eq_true_iff _).mpr hsalt, rfl, ?_, h88, ?_, ?_⟩
  · exact hashPassword_salted kdf _ _ _ rfl hsalt hpos
  · exact ⟨fun h => h.symm, fun h => h.symm⟩
  · intro hne heq
    apply hne
    have : jsLength that.password = jsLength
        (toBase64 (kdf that.password (cast (randomBytes 16 rt).1) 10000 64)) :=
      congrArg jsLength heq.symm
    rw [this, h88]

/-- Witness for C3 (amended): bob saved with the password bobbobbob. -/
theorem preSave_rehashes_witness :
    ∃ saved rt', preSave samplePbkdf2 sampleToString ["password"] bob sampleRuntime =
        .ok (saved, rt') ∧
      (randomBytes 16 sampleRuntime).1.length = 16 ∧
      rt'.drawn = sampleRuntime.drawn + 16 ∧
      saved.salt = some (sampleToString (randomBytes 16 sampleRuntime).1) ∧
      truthyField saved.salt = true ∧
      saved.password =
        toBase64 (samplePbkdf2 bob.password
          (sampleToString (randomBytes 16 sampleRuntime).1) 10000 64) ∧
      hashPassword samplePbkdf2 saved bob.password = .ok saved.password ∧
      jsLength saved.password = 88 ∧
      (saved.password = bob.password ↔
        bob.password = toBase64 (samplePbkdf2 bob.password
          (sampleToString (randomBytes 16 sampleRuntime).1) 10000 64)) ∧
      (jsLength bob.password ≠ 88 → saved.password ≠ bob.password) :=
  preSave_rehashes samplePbkdf2 sampleToString ["password"] bob sampleRuntime
    (by decide) (by decide) (by intro _ _ _ _; simp [samplePbkdf2])
    (by
      intro bytes hb hs
      have := congrArg String.data hs
      simp [sampleToString] at this
      exact hb this)

/-- C4, refuted as stated: a document that was never given a salt and holds the
six-character password secret authenticates the candidate secret, for every
key-derivation function, although its salt is missing. -/
theorem authenticate_saltless_accepts :
    (∀ kdf : Pbkdf2, authenticate kdf saltlessUser "secret" = .ok true) ∧
      saltlessUser.salt = none ∧ saltlessUser.password = "secret" :=
  ⟨fun kdf => by
      rw [authenticate_eq kdf saltlessUser "secret" "secret"
        (hashPassword_unsalted kdf saltlessUser "secret" (Or.inl rfl))]
      rfl,
    rfl, rfl⟩

/-- C4, amended. `authenticate` never raises and returns true exactly when the
stored password equals `hashPassword` of the candidate, false otherwise. With a
non-empty salt and a non-empty candidate that is the base64 text of the derived
key of the candidate under the stored salt; with a missing or empty salt, or an
empty candidate, it is the candidate itself, so `authenticate` then returns true
exactly when the stored password equals the candidate. -/
theorem authenticate_spec (kdf : Pbkdf2) (that : ProxyUser) (candidate : String) :
    (∃ b, authenticate kdf that candidate = .ok b) ∧
      (authenticate kdf that candidate ≠ .ok true →
        authenticate kdf that candidate = .ok false) ∧
      (∀ hash, hashPassword kdf that candidate = .ok hash →
        (authenticate kdf that candidate = .ok true ↔ that.password = hash)) ∧
      (∀ salt, that.salt = some salt → salt ≠ "" → candidate ≠ "" →
        (authenticate kdf that candidate = .ok true ↔
          that.password = toBase64 (kdf candidate salt 10000 64))) ∧
      (that.salt = none ∨ that.salt = some "" ∨ candidate = "" →
        (authenticate kdf that candidate = .ok true ↔ that.password = candidate)) := by
  have key : ∀ hash, hashPassword kdf that candidate = .ok hash →
      (authenticate kdf that candidate = .ok true ↔ that.password = hash) := by
    intro hash hh
    rw [authenticate_eq kdf that candidate hash hh]
    simp
  have htotal : ∃ hash, hashPassword kdf that candidate = .ok hash := by
    unfold hashPassword
    split <;> exact ⟨_, rfl⟩
  obtain ⟨hash, hh⟩ := htotal
  refine ⟨⟨_, authenticate_eq kdf that candidate hash hh⟩, ?_, key, ?_, ?_⟩
  · rw [authenticate_eq kdf that candidate hash hh]
    cases decide (that.password = hash) <;> simp
  · intro salt hsalt hs hc
    exact key _ (hashPassword_salted kdf that candidate salt hsalt hs hc)
  · intro h
    exact key _ (hashPassword_unsalted kdf that candidate h)

/-- Witness for C4 (amended): the saved bob document and a wrong candidate. -/
theorem authenticate_spec_witness :
    authenticate samplePbkdf2 storedUser "wrongpass" = .ok false :=
  (authenticate_spec samplePbkdf2 storedUser "wrongpass").2.1 (by
    intro h
    have := ((authenticate_spec samplePbkdf2 storedUser "wrongpass").2.2.2.1
      "c2FsdA==" rfl (by decide) (by decide)).mp h
    revert this
    decide)

/-- C5, refuted as stated: a stored document whose password is assigned the
five-character value short goes through the save hook unchanged, so the
password field then holds short and not the hash stored before. -/
theorem preSave_short_keeps_plaintext :
    (∀ (kdf : Pbkdf2) (cast : BufferToString) (rt : Runtime),
        preSave kdf cast ["password"] (assignPassword storedUser "short") rt =
          .ok (assignPassword storedUser "short", rt)) ∧
      (assignPassword storedUser "short").password = "short" ∧
      (assignPassword storedUser "short").password ≠ storedUser.password :=
  ⟨fun kdf cast rt => preSave_short kdf cast ["password"] _ rt (by decide) (by decide),
    rfl, by decide⟩

/-- C5, amended. When the password path is marked modified and the new value
has at most six UTF-16 units (the empty value included), the save hook returns
the document exactly as the assignment left it and draws no random byte: the
salt is the one held before the assignment, and the password field holds the
new value as assigned, not hashed. -/
theorem preSave_short_password (kdf : Pbkdf2) (cast : BufferToString) (mp : List String)
    (user : ProxyUser) (p : String) (rt : Runtime)
    (hmod : isModified mp "password" = true) (hlen : jsLength p ≤ 6) :
    preSave kdf cast mp (assignPassword user p) rt = .ok (assignPassword user p, rt) ∧
      (assignPassword user p).salt = user.salt ∧
      (assignPassword user p).password = p :=
  ⟨preSave_short kdf cast mp _ rt hmod hlen, rfl, rfl⟩

/-- Witness for C5 (amended): the stored document assigned the password short. -/
theorem preSave_short_password_witness :
    preSave samplePbkdf2 sampleToString ["password"] (assignPassword storedUser "short")
        sampleRuntime =
        .ok (assignPassword storedUser "short", sampleRuntime) ∧
      (assignPassword storedUser "short").salt = storedUser.salt ∧
      (assignPassword storedUser "short").password = "short" :=
  preSave_short_password samplePbkdf2 sampleToString ["password"] storedUser "short"
    sampleRuntime (by decide) (by decide)

/-- C6, refuted as stated: on a document with a salt, `hashPassword` of the
empty plaintext returns the empty string; it raises nothing. -/
theorem hashPassword_empty_returns :
    (∀ kdf : Pbkdf2, hashPassword kdf storedUser "" = .ok "") ∧
      storedUser.salt = some "c2FsdA==" :=
  ⟨fun kdf => hashPassword_unsalted kdf storedUser "" (Or.inr (Or.inr rfl)), rfl⟩

/-- C6, amended. When the plaintext is empty while the salt of the document is
present and not empty, `hashPassword` does not fail: it returns the empty
plaintext unchanged. -/
theorem hashPassword_empty_salted (kdf : Pbkdf2) (that : ProxyUser) (salt : String)
    (hsalt : that.salt = some salt) (hs : salt ≠ "") :
    truthyField that.salt = true ∧
      hashPassword kdf that "" = .ok "" ∧ ∀ e, hashPassword kdf that "" ≠ .error e := by
  have h := hashPassword_unsalted kdf that "" (Or.inr (Or.inr rfl))
  refine ⟨?_, h, fun e he => ?_⟩
  · rw [hsalt]
    exact (truthy_eq_true_iff salt).mpr hs
  · rw [h] at he
    cases he

/-- Witness for C6 (amended): the stored document, whose salt is c2FsdA==. -/
theorem hashPassword_empty_salted_witness :
    truthyField storedUser.salt = true ∧
      hashPassword samplePbkdf2 storedUser "" = .ok "" ∧
      ∀ e, hashPassword samplePbkdf2 storedUser "" ≠ .error e :=
  hashPassword_empty_salted samplePbkdf2 storedUser "c2FsdA==" rfl (by decide)

theorem randomBytes_sample : (randomBytes 16 sampleRuntime).1 = List.replicate 16 65 := by
  decide

/-- C7, refuted as stated: with a randomness source whose bytes are all 65, and
any string conversion that reads sixteen bytes 65 as sixteen letters A (as
`buf.toString()` does), the salt stored for bob is AAAAAAAAAAAAAAAA, while the
base64 text of those 16 bytes is QUFBQUFBQUFBQUFBQUFBQQ==. -/
theorem preSave_salt_not_base64 :
    (∀ (kdf : Pbkdf2) (cast : BufferToString),
        cast (List.replicate 16 65) = "AAAAAAAAAAAAAAAA" →
        ∃ saved rt', preSave kdf cast ["password"] bob sampleRuntime = .ok (saved, rt') ∧
          saved.salt = some "AAAAAAAAAAAAAAAA") ∧
      sampleToString (List.replicate 16 65) = "AAAAAAAAAAAAAAAA" ∧
      (randomBytes 16 sampleRuntime).1 = List.replicate 16 65 ∧
      toBase64 (List.replicate 16 65) = "QUFBQUFBQUFBQUFBQUFBQQ==" := by
  refine ⟨fun kdf cast hcast => ?_, by decide, randomBytes_sample, by decide⟩
  obtain ⟨hash, hh⟩ := hashPassword_returns kdf
    { bob with salt := some (cast (randomBytes 16 sampleRuntime).1) } bob.password
  refine ⟨_, _, preSave_rehash kdf cast ["password"] bob sampleRuntime hash
    (by decide) (by decide) hh, ?_⟩
  show some (cast (randomBytes 16 sampleRuntime).1) = some "AAAAAAAAAAAAAAAA"
  rw [randomBytes_sample, hcast]

/-- C7, amended. After a genuine password change the buffer the hook assigns to
the salt path holds the 16 bytes drawn from the randomness source themselves,
for every value of those bytes: the hook base64-encodes them and decodes that
text back into a buffer. The stored salt is the string the path makes of that
buffer; how it converts the buffer is left open here. -/
theorem preSave_salt (kdf : Pbkdf2) (cast : BufferToString) (mp : List String)
    (that : ProxyUser) (rt : Runtime)
    (hmod : isModified mp "password" = true) (hlen : jsLength that.password > 6) :
    ∃ saved rt', preSave kdf cast mp that rt = .ok (saved, rt') ∧
      (randomBytes 16 rt).1 = (List.range 16).map (fun i => rt.entropy (rt.drawn + i) % 256) ∧
      (randomBytes 16 rt).1.length = 16 ∧
      fromBase64 (toBase64 (randomBytes 16 rt).1) = (randomBytes 16 rt).1 ∧
      saved.salt = some (cast (randomBytes 16 rt).1) := by
  obtain ⟨hash, hh⟩ := hashPassword_returns kdf
    { that with salt := some (cast (randomBytes 16 rt).1) } that.password
  exact ⟨_, _, preSave_rehash kdf cast mp that rt hash hmod hlen hh, rfl,
    length_randomBytes 16 rt, fromBase64_toBase64 _ (randomBytes_lt 16 rt), rfl⟩

/-- Witness for C7 (amended): bob saved with a source whose bytes are all 65. -/
theorem preSave_salt_witness :
    ∃ saved rt', preSave samplePbkdf2 sampleToString ["password"] bob sampleRuntime =
        .ok (saved, rt') ∧
      (randomBytes 16 sampleRuntime).1 =
        (List.range 16).map (fun i => sampleRuntime.entropy (sampleRuntime.drawn + i) % 256) ∧
      (randomBytes 16 sampleRuntime).1.length = 16 ∧
      fromBase64 (toBase64 (randomBytes 16 sampleRuntime).1) = (randomBytes 16 sampleRuntime).1 ∧
      saved.salt = some (sampleToString (randomBytes 16 sampleRuntime).1) :=
  preSave_salt samplePbkdf2 sampleToString ["password"] bob sampleRuntime
    (by decide) (by decide)

/-- C8. Pass-through on empty salt: for a document whose salt is missing or
empty, `hashPassword` returns the plaintext it was given, unchanged. -/
theorem hashPassword_passthrough (kdf : Pbkdf2) (that : ProxyUser) (p : String)
    (hsalt : that.salt = none ∨ that.salt = some "") :
    hashPassword kdf that p = .ok p :=
  hashPassword_unsalted kdf that p (hsalt.elim Or.inl (fun h => Or.inr (Or.inl h)))

/-- Witness for C8: the plaintext anything on a document without a salt. -/
theorem hashPassword_passthrough_witness :
    hashPassword samplePbkdf2 saltlessUser "anything" = .ok "anything" :=
  hashPassword_passthrough samplePbkdf2 saltlessUser "anything" (Or.inl rfl)

/-- C9, the code at the failing input: the eight-character password abcdefgh is
rejected by the validator, with the message that asks for at least eight
characters; in general the validator accepts exactly the passwords of nine or
more UTF-16 units. -/
theorem validatePassword_rejects_eight :
    jsLength "abcdefgh" = 8 ∧
      validatePassword "abcdefgh" = .bool false ∧
      checkPassword "abcdefgh" = .error "Password should be at least 8 characters" ∧
      (∀ pwd, checkPassword pwd = .ok () ↔ 9 ≤ jsLength pwd) := by
  refine ⟨by decide, by decide, rfl, fun pwd => ?_⟩
  rw [← validatePassword_truthy_iff]
  unfold checkPassword
  split <;> simp_all

/-- C10. For a document with a non-empty roles sequence `getRole` returns its
first element, and `isAdmin` is true exactly when `getRole` returns admin. A
document built without a roles field has roles user alone, so `getRole` is user
and `isAdmin` is false; a document built with roles admin alone has `isAdmin`
true. -/
theorem roles_spec (that : ProxyUser) (h : that.roles ≠ []) :
    getRole that = some (that.roles.head h) ∧
      (isAdmin that = true ↔ getRole that = some "admin") ∧
      (∀ now obj, obj.roles = none →
        (newProxyUser now obj).roles = ["user"] ∧
        getRole (newProxyUser now obj) = some "user" ∧
        isAdmin (newProxyUser now obj) = false) ∧
      (∀ now obj, obj.roles = some ["admin"] →
        getRole (newProxyUser now obj) = some "admin" ∧
        isAdmin (newProxyUser now obj) = true) := by
  refine ⟨?_, ?_, ?_, ?_⟩
  · rw [getRole, ← List.head?_eq_getElem?, List.head?_eq_head h]
  · simp [isAdmin, getRole]
  · intro now obj hobj
    simp [newProxyUser, hobj, getRole, isAdmin]
  · intro now obj hobj
    simp [newProxyUser, hobj, getRole, isAdmin]

/-- Witness for C10: carl, built with roles admin alone. -/
theorem roles_spec_witness :
    getRole carl = some "admin" ∧ isAdmin carl = true ∧
      getRole bob = some "user" ∧ isAdmin bob = false :=
  ⟨(roles_spec carl (by decide)).1, by decide, by decide, by decide⟩

end ProxyModel
